import Mathlib

/-!
Verification of `OrbitPropagator.py`: a two-body orbit propagator that
resolves an initial Cartesian state, allocates fixed-size trajectory arrays
of `n_steps = ceil(tspan/dt)` samples, and advances a numerical ODE solver
from one output time to the next, recording time, state and true anomaly
at each step.

Numbers are modelled exactly: Python floats become `ℚ` in the orchestration
code (where only field arithmetic occurs) and `ℝ` in the equations of
motion (which take a square root).  The external collaborators — the
`scipy.integrate.ode` solver, and the `tools` module functions `coes2rv`
and `true_anomaly_r` (whose source files are not part of the repository) —
are modelled abstractly, as parameters.
-/

namespace OrbitProp

/-- Modelled from the spec: §4.4 Numerical Integrator.  The
`scipy.integrate.ode` object (external library) is a stateful solver with a
current internal time `t`, a current internal state `y`, and a
success/failure signal `ok` (scipy's `successful()`). -/
structure Solver where
  t : ℚ
  y : List ℚ
  ok : Bool
deriving DecidableEq, Repr

/-- Modelled from the spec: §4.4 — `solver.integrate(target)` mutates the
solver, integrating from its current internal time toward `target`.  Its
numerics are external (lsoda), so it is kept abstract: any function from a
solver state and a target time to a new solver state. -/
def Integrator : Type := Solver → ℚ → Solver

/-- Embeds the first conjunct of the loop condition on line 65,
`self.solver.successful` : the method is referenced but not called (no
parentheses), and in Python a bound-method object is always truthy, so this
conjunct is `true` regardless of the solver's actual success flag. -/
def solverSuccessfulTruthy (_s : Solver) : Bool := true

/-- The instance state of `OrbitPropagator` built by `__init__`
(lines 33-57): initial sample `y0`, configuration `tspan`/`dt`, step count
`n_steps`, the trajectory arrays `ys`/`ts`/`ta`, the loop counter `step`,
the solver object, and the `rs`/`vs` views created by `propagate_orbit`
(absent — empty — until it runs).  The plotting-only central-body record
`cb` is omitted: no claim touches it. -/
structure Propagator where
  y0 : List ℚ
  tspan : ℚ
  dt : ℚ
  n_steps : ℤ
  ys : List (List ℚ)
  ts : List ℚ
  ta : List ℚ
  step : ℕ
  solver : Solver
  rs : List (List ℚ)
  vs : List (List ℚ)
deriving DecidableEq, Repr

/-- Embeds lines 29-31 (the `coes=False` branch of `__init__`):
`self.r0 = state0[:3]` is immediately overwritten by `self.r0 = state0[3:]`,
and `self.v0` is never assigned in this branch, so line 33
(`self.v0.tolist()`) raises `AttributeError` — construction fails.  The
result is the resolved `(r0, v0)` pair, `none` on failure. -/
def resolveRawState (state0 : List ℚ) : Option (List ℚ × List ℚ) :=
  let r0 := state0.take 3
  let r0 := state0.drop 3
  let v0 : Option (List ℚ) := none
  v0.map (fun v => (r0, v))

/-- One iteration of the `while` body of `propagate_orbit` (lines 66-70):
advance the solver to `solver.t + dt`, record the solver's time, state and
the state's true anomaly at index `step`, and increment `step`. -/
def loopIter (integrate : Integrator) (taFn : List ℚ → ℚ) (p : Propagator) :
    Propagator :=
  let s := integrate p.solver (p.solver.t + p.dt)
  { p with
    solver := s
    ts := p.ts.set p.step s.t
    ys := p.ys.set p.step s.y
    ta := p.ta.set p.step (taFn s.y)
    step := p.step + 1 }

/-- The `while` loop of `propagate_orbit` (lines 65-70), with explicit fuel.
The condition is `self.solver.successful and self.step < self.n_steps`;
the first conjunct is the always-truthy bound method (see
`solverSuccessfulTruthy`).  Since `step` increases by one per iteration,
fuel `n_steps.toNat - step` makes the fuel-indexed recursion coincide with
the source's `while` loop. -/
def propagateLoop (integrate : Integrator) (taFn : List ℚ → ℚ) :
    ℕ → Propagator → Propagator
  | 0, p => p
  | fuel+1, p =>
      if solverSuccessfulTruthy p.solver = true ∧ (p.step : ℤ) < p.n_steps then
        propagateLoop integrate taFn fuel (loopIter integrate taFn p)
      else p

/-- Embeds `propagate_orbit` (lines 63-74): run the stepping loop, then set
the position and velocity views `rs = ys[:,:3]` and `vs = ys[:,3:]`. -/
def propagate_orbit (integrate : Integrator) (taFn : List ℚ → ℚ)
    (p : Propagator) : Propagator :=
  let q := propagateLoop integrate taFn (p.n_steps.toNat - p.step) p
  { q with
    rs := q.ys.map (fun row => row.take 3)
    vs := q.ys.map (fun row => row.drop 3) }

/-- Embeds lines 33-61 of `__init__`, after the initial state has been
resolved to `(r0, v0)`: build `y0` by concatenation, compute
`n_steps = int(np.ceil(tspan/dt))`, allocate the zero-filled arrays,
record sample 0 (time 0, state `y0`, true anomaly of `y0`), set the loop
counter to 1, create the solver with initial value `y0` at time 0, and run
`propagate_orbit` when `auto_orbit_prop` is set.  Failure cases are the
unguarded runtime errors of the source: `tspan/dt` with `dt = 0` raises
`ZeroDivisionError`; `np.zeros` with a negative dimension raises
`ValueError`; `ts[0] = 0` on a zero-length array raises `IndexError`.
`taFn` models the external `tools.true_anomaly_r`.  `mkInitial` is the
instance as it stands just before line 60 (the successfully-constructed
case); `initTraj` wraps it in the failure conditions and the
`auto_orbit_prop` branch. -/
def mkInitial (r0 v0 : List ℚ) (taFn : List ℚ → ℚ) (tspan dt : ℚ) :
    Propagator :=
  let y0 := r0 ++ v0
  let n_steps : ℤ := ⌈tspan / dt⌉
  { y0 := y0
    tspan := tspan
    dt := dt
    n_steps := n_steps
    ys := (List.replicate n_steps.toNat (List.replicate 6 (0 : ℚ))).set 0 y0
    ts := (List.replicate n_steps.toNat (0 : ℚ)).set 0 0
    ta := (List.replicate n_steps.toNat (0 : ℚ)).set 0 (taFn y0)
    step := 1
    solver := { t := 0, y := y0, ok := true }
    rs := []
    vs := [] }

/-- Embeds lines 33-61 of `__init__` (see `mkInitial`): construction fails
with an unguarded runtime error when `dt = 0` (`ZeroDivisionError` at
`tspan/dt`), when `n_steps` is negative (`np.zeros` rejects negative
dimensions) or zero (`ts[0] = 0` raises `IndexError` on an empty array);
otherwise it yields the instance, auto-propagated when `auto_orbit_prop`
is set. -/
def initTraj (r0 v0 : List ℚ) (taFn : List ℚ → ℚ) (integrate : Integrator)
    (tspan dt : ℚ) (auto_orbit_prop : Bool) : Option Propagator :=
  if dt = 0 then none
  else
    let n_steps : ℤ := ⌈tspan / dt⌉
    if n_steps < 0 then none
    else if n_steps = 0 then none
    else
      let p := mkInitial r0 v0 taFn tspan dt
      some (if auto_orbit_prop then propagate_orbit integrate taFn p else p)

/-- Embeds `__init__` (lines 25-61) in full: resolve the initial state via
the external converter `coes2rv` (modelled from the spec §4.1, its source
file being absent from the repository) when `coes` is set, otherwise take
the raw state through the defective lines 29-31; then proceed as
`initTraj`. -/
def orbitPropInit (coes2rv : List ℚ → List ℚ × List ℚ) (taFn : List ℚ → ℚ)
    (integrate : Integrator) (state0 : List ℚ) (tspan dt : ℚ)
    (coes : Bool) (auto_orbit_prop : Bool) : Option Propagator :=
  match (if coes then some (coes2rv state0) else resolveRawState state0) with
  | none => none
  | some (r0, v0) => initTraj r0 v0 taFn integrate tspan dt auto_orbit_prop

/-- A six-component Cartesian state over `ℝ`, as unpacked on line 78:
position `(rx, ry, rz)` and velocity `(vx, vy, vz)`. -/
structure StateR where
  rx : ℝ
  ry : ℝ
  rz : ℝ
  vx : ℝ
  vy : ℝ
  vz : ℝ

/-- `np.linalg.norm(r)` on line 84: the Euclidean norm of the position
vector. -/
noncomputable def posNorm (y : StateR) : ℝ :=
  Real.sqrt (y.rx ^ 2 + y.ry ^ 2 + y.rz ^ 2)

/-- Embeds `diffy_q` (lines 76-90): the two-body equations of motion.
Returns `[vx, vy, vz, ax, ay, az]` with `a = -r * mu / norm_r ** 3`.
The time argument `t` is accepted and ignored, exactly as in the source.
Over `ℝ`, division by zero yields 0 where the float source yields NaN;
either way no error is raised. -/
noncomputable def diffy_q (mu : ℝ) (t : ℝ) (y : StateR) : StateR :=
  let norm_r := posNorm y
  { rx := y.vx
    ry := y.vy
    rz := y.vz
    vx := -y.rx * mu / norm_r ^ 3
    vy := -y.ry * mu / norm_r ^ 3
    vz := -y.rz * mu / norm_r ^ 3 }

/-- One output-interval advance of the solver, as performed at the top of
each loop iteration (line 66): `solver.integrate(solver.t + dt)`. -/
def advanceOnce (integrate : Integrator) (dt : ℚ) (s : Solver) : Solver :=
  integrate s (s.t + dt)

@[simp] theorem loopIter_step (I : Integrator) (T : List ℚ → ℚ) (p : Propagator) :
    (loopIter I T p).step = p.step + 1 := rfl

@[simp] theorem loopIter_n_steps (I : Integrator) (T : List ℚ → ℚ) (p : Propagator) :
    (loopIter I T p).n_steps = p.n_steps := rfl

@[simp] theorem loopIter_dt (I : Integrator) (T : List ℚ → ℚ) (p : Propagator) :
    (loopIter I T p).dt = p.dt := rfl

@[simp] theorem loopIter_solver (I : Integrator) (T : List ℚ → ℚ) (p : Propagator) :
    (loopIter I T p).solver = advanceOnce I p.dt p.solver := rfl

@[simp] theorem loopIter_ts (I : Integrator) (T : List ℚ → ℚ) (p : Propagator) :
    (loopIter I T p).ts = p.ts.set p.step (advanceOnce I p.dt p.solver).t := rfl

@[simp] theorem loopIter_ys (I : Integrator) (T : List ℚ → ℚ) (p : Propagator) :
    (loopIter I T p).ys = p.ys.set p.step (advanceOnce I p.dt p.solver).y := rfl

@[simp] theorem loopIter_ta (I : Integrator) (T : List ℚ → ℚ) (p : Propagator) :
    (loopIter I T p).ta = p.ta.set p.step (T (advanceOnce I p.dt p.solver).y) := rfl

theorem propagateLoop_frame (I : Integrator) (T : List ℚ → ℚ) (f : ℕ) (p : Propagator) :
    (propagateLoop I T f p).n_steps = p.n_steps ∧
    (propagateLoop I T f p).dt = p.dt ∧
    (propagateLoop I T f p).y0 = p.y0 ∧
    (propagateLoop I T f p).ts.length = p.ts.length ∧
    (propagateLoop I T f p).ys.length = p.ys.length ∧
    (propagateLoop I T f p).ta.length = p.ta.length ∧
    (propagateLoop I T f p).rs = p.rs ∧
    (propagateLoop I T f p).vs = p.vs := by
  induction f generalizing p with
  | zero => exact ⟨rfl, rfl, rfl, rfl, rfl, rfl, rfl, rfl⟩
  | succ f ih =>
      simp only [propagateLoop]
      split
      · obtain ⟨h1, h2, h3, h4, h5, h6, h7, h8⟩ := ih (loopIter I T p)
        refine ⟨?_, ?_, ?_, ?_, ?_, ?_, ?_, ?_⟩ <;>
          simp_all [loopIter, List.length_set]
      · exact ⟨rfl, rfl, rfl, rfl, rfl, rfl, rfl, rfl⟩

theorem propagateLoop_step (I : Integrator) (T : List ℚ → ℚ) (f : ℕ) (p : Propagator) :
    (propagateLoop I T f p).step = p.step + min f (p.n_steps.toNat - p.step) := by
  induction f generalizing p with
  | zero => simp [propagateLoop]
  | succ f ih =>
      simp only [propagateLoop]
      split
      · rename_i h
        have hlt : p.step < p.n_steps.toNat := Int.lt_toNat.mpr h.2
        rw [ih (loopIter I T p)]
        simp only [loopIter_step, loopIter_n_steps]
        omega
      · rename_i h
        have hge : ¬ ((p.step : ℤ) < p.n_steps) := fun hc => h ⟨rfl, hc⟩
        have : p.n_steps.toNat ≤ p.step := Int.toNat_le.mpr (by omega)
        omega

theorem propagateLoop_get?_lt (I : Integrator) (T : List ℚ → ℚ) (f : ℕ) (p : Propagator)
    (k : ℕ) (hk : k < p.step) :
    (propagateLoop I T f p).ts[k]? = p.ts[k]? ∧
    (propagateLoop I T f p).ys[k]? = p.ys[k]? ∧
    (propagateLoop I T f p).ta[k]? = p.ta[k]? := by
  induction f generalizing p with
  | zero => exact ⟨rfl, rfl, rfl⟩
  | succ f ih =>
      simp only [propagateLoop]
      split
      · have hk' : k < (loopIter I T p).step := by simp; omega
        obtain ⟨h1, h2, h3⟩ := ih (loopIter I T p) hk'
        rw [h1, h2, h3]
        have hne : p.step ≠ k := by omega
        exact ⟨List.getElem?_set_ne hne, List.getElem?_set_ne hne,
          List.getElem?_set_ne hne⟩
      · exact ⟨rfl, rfl, rfl⟩

theorem propagateLoop_get?_trace (I : Integrator) (T : List ℚ → ℚ) (f : ℕ) (p : Propagator)
    (k : ℕ) (hts : p.ts.length = p.n_steps.toNat) (hys : p.ys.length = p.n_steps.toNat)
    (hta : p.ta.length = p.n_steps.toNat)
    (h1 : p.step ≤ k) (h2 : k < p.step + min f (p.n_steps.toNat - p.step)) :
    (propagateLoop I T f p).ts[k]? = some ((advanceOnce I p.dt)^[k + 1 - p.step] p.solver).t ∧
    (propagateLoop I T f p).ys[k]? = some ((advanceOnce I p.dt)^[k + 1 - p.step] p.solver).y ∧
    (propagateLoop I T f p).ta[k]? =
      some (T ((advanceOnce I p.dt)^[k + 1 - p.step] p.solver).y) := by
  induction f generalizing p with
  | zero => omega
  | succ f ih =>
      have hcond : (p.step : ℤ) < p.n_steps := by
        by_contra hc
        have : p.n_steps.toNat ≤ p.step := Int.toNat_le.mpr (by omega)
        omega
      have hlen : p.step < p.n_steps.toNat := Int.lt_toNat.mpr hcond
      simp only [propagateLoop]
      rw [if_pos ⟨rfl, hcond⟩]
      by_cases hk : k = p.step
      · subst hk
        have hklt : p.step < (loopIter I T p).step := by simp
        obtain ⟨g1, g2, g3⟩ :=
          propagateLoop_get?_lt I T f (loopIter I T p) p.step hklt
        rw [g1, g2, g3]
        have he : p.step + 1 - p.step = 1 := by omega
        simp only [loopIter_ts, loopIter_ys, loopIter_ta, he, Function.iterate_one]
        exact ⟨List.getElem?_set_eq_of_lt _ (by omega),
          List.getElem?_set_eq_of_lt _ (by omega),
          List.getElem?_set_eq_of_lt _ (by omega)⟩
      · have h1' : (loopIter I T p).step ≤ k := by simp; omega
        have h2' : k < (loopIter I T p).step +
            min f ((loopIter I T p).n_steps.toNat - (loopIter I T p).step) := by
          simp only [loopIter_step, loopIter_n_steps]
          omega
        obtain ⟨g1, g2, g3⟩ := ih (loopIter I T p)
          (by simp [loopIter, List.length_set, hts])
          (by simp [loopIter, List.length_set, hys])
          (by simp [loopIter, List.length_set, hta]) h1' h2'
        rw [g1, g2, g3]
        have he : k + 1 - p.step = (k + 1 - (p.step + 1)) + 1 := by omega
        simp only [loopIter_step, loopIter_dt, loopIter_solver, he,
          Function.iterate_succ_apply]
        exact ⟨trivial, trivial, trivial⟩

@[simp] theorem mkInitial_step (r0 v0 : List ℚ) (T : List ℚ → ℚ) (tspan dt : ℚ) :
    (mkInitial r0 v0 T tspan dt).step = 1 := rfl

@[simp] theorem mkInitial_n_steps (r0 v0 : List ℚ) (T : List ℚ → ℚ) (tspan dt : ℚ) :
    (mkInitial r0 v0 T tspan dt).n_steps = ⌈tspan / dt⌉ := rfl

@[simp] theorem mkInitial_dt (r0 v0 : List ℚ) (T : List ℚ → ℚ) (tspan dt : ℚ) :
    (mkInitial r0 v0 T tspan dt).dt = dt := rfl

@[simp] theorem mkInitial_y0 (r0 v0 : List ℚ) (T : List ℚ → ℚ) (tspan dt : ℚ) :
    (mkInitial r0 v0 T tspan dt).y0 = r0 ++ v0 := rfl

@[simp] theorem mkInitial_solver (r0 v0 : List ℚ) (T : List ℚ → ℚ) (tspan dt : ℚ) :
    (mkInitial r0 v0 T tspan dt).solver = { t := 0, y := r0 ++ v0, ok := true } := rfl

@[simp] theorem mkInitial_ts_length (r0 v0 : List ℚ) (T : List ℚ → ℚ) (tspan dt : ℚ) :
    (mkInitial r0 v0 T tspan dt).ts.length = (⌈tspan / dt⌉).toNat := by
  simp [mkInitial]

@[simp] theorem mkInitial_ys_length (r0 v0 : List ℚ) (T : List ℚ → ℚ) (tspan dt : ℚ) :
    (mkInitial r0 v0 T tspan dt).ys.length = (⌈tspan / dt⌉).toNat := by
  simp [mkInitial]

@[simp] theorem mkInitial_ta_length (r0 v0 : List ℚ) (T : List ℚ → ℚ) (tspan dt : ℚ) :
    (mkInitial r0 v0 T tspan dt).ta.length = (⌈tspan / dt⌉).toNat := by
  simp [mkInitial]

theorem mkInitial_sample0 (r0 v0 : List ℚ) (T : List ℚ → ℚ) (tspan dt : ℚ)
    (h : 0 < ⌈tspan / dt⌉) :
    (mkInitial r0 v0 T tspan dt).ts[0]? = some 0 ∧
    (mkInitial r0 v0 T tspan dt).ys[0]? = some (r0 ++ v0) ∧
    (mkInitial r0 v0 T tspan dt).ta[0]? = some (T (r0 ++ v0)) := by
  have hl : 0 < (⌈tspan / dt⌉).toNat := by omega
  refine ⟨?_, ?_, ?_⟩ <;>
    simp only [mkInitial] <;>
    exact List.getElem?_set_eq_of_lt _ (by simpa using hl)

theorem initTraj_of_pos (r0 v0 : List ℚ) (T : List ℚ → ℚ) (I : Integrator)
    (tspan dt : ℚ) (auto : Bool) (h1 : 0 < tspan) (h2 : 0 < dt) :
    initTraj r0 v0 T I tspan dt auto =
      some (if auto then propagate_orbit I T (mkInitial r0 v0 T tspan dt)
            else mkInitial r0 v0 T tspan dt) := by
  have hc : 0 < ⌈tspan / dt⌉ := Int.ceil_pos.mpr (div_pos h1 h2)
  simp only [initTraj]
  rw [if_neg h2.ne', if_neg (by omega), if_neg (by omega)]

@[simp] theorem propagate_orbit_ts (I : Integrator) (T : List ℚ → ℚ) (p : Propagator) :
    (propagate_orbit I T p).ts = (propagateLoop I T (p.n_steps.toNat - p.step) p).ts := rfl

@[simp] theorem propagate_orbit_ys (I : Integrator) (T : List ℚ → ℚ) (p : Propagator) :
    (propagate_orbit I T p).ys = (propagateLoop I T (p.n_steps.toNat - p.step) p).ys := rfl

@[simp] theorem propagate_orbit_ta (I : Integrator) (T : List ℚ → ℚ) (p : Propagator) :
    (propagate_orbit I T p).ta = (propagateLoop I T (p.n_steps.toNat - p.step) p).ta := rfl

@[simp] theorem propagate_orbit_step (I : Integrator) (T : List ℚ → ℚ) (p : Propagator) :
    (propagate_orbit I T p).step = (propagateLoop I T (p.n_steps.toNat - p.step) p).step := rfl

@[simp] theorem propagate_orbit_solver (I : Integrator) (T : List ℚ → ℚ) (p : Propagator) :
    (propagate_orbit I T p).solver =
      (propagateLoop I T (p.n_steps.toNat - p.step) p).solver := rfl

@[simp] theorem propagate_orbit_n_steps (I : Integrator) (T : List ℚ → ℚ) (p : Propagator) :
    (propagate_orbit I T p).n_steps = p.n_steps :=
  (propagateLoop_frame I T _ p).1

@[simp] theorem propagate_orbit_rs (I : Integrator) (T : List ℚ → ℚ) (p : Propagator) :
    (propagate_orbit I T p).rs =
      (propagateLoop I T (p.n_steps.toNat - p.step) p).ys.map (fun row => row.take 3) := rfl

@[simp] theorem propagate_orbit_vs (I : Integrator) (T : List ℚ → ℚ) (p : Propagator) :
    (propagate_orbit I T p).vs =
      (propagateLoop I T (p.n_steps.toNat - p.step) p).ys.map (fun row => row.drop 3) := rfl

/-- C3: whenever tspan > 0 and dt > 0, construction succeeds, the recorded
step count is exactly the ceiling of tspan/dt, and the three trajectory
arrays (times, states, true anomalies) are each allocated with exactly
`n_steps` entries — whether or not the orbit is auto-propagated. -/
theorem c3_n_steps_and_allocation (r0 v0 : List ℚ) (T : List ℚ → ℚ)
    (I : Integrator) (tspan dt : ℚ) (auto : Bool)
    (h1 : 0 < tspan) (h2 : 0 < dt) :
    ∃ p, initTraj r0 v0 T I tspan dt auto = some p ∧
      p.n_steps = ⌈tspan / dt⌉ ∧
      p.ts.length = p.n_steps.toNat ∧
      p.ys.length = p.n_steps.toNat ∧
      p.ta.length = p.n_steps.toNat := by
  refine ⟨_, initTraj_of_pos r0 v0 T I tspan dt auto h1 h2, ?_⟩
  obtain ⟨hn, -, -, hts, hys, hta, -, -⟩ :=
    propagateLoop_frame I T
      ((mkInitial r0 v0 T tspan dt).n_steps.toNat - (mkInitial r0 v0 T tspan dt).step)
      (mkInitial r0 v0 T tspan dt)
  simp only [mkInitial_n_steps, mkInitial_step] at hn hts hys hta
  cases auto <;>
    simp [hn, hts, hys, hta]

/-- C3 witness at tspan = 10, dt = 3 (so n_steps = 4). -/
theorem c3_witness :
    (0 : ℚ) < 10 ∧ (0 : ℚ) < 3 ∧
    (∃ p, initTraj [1, 2, 3] [4, 5, 6] (fun _ => 0) (fun s _ => s) 10 3 true = some p ∧
      p.n_steps = ⌈(10 : ℚ) / 3⌉ ∧
      p.ts.length = p.n_steps.toNat ∧
      p.ys.length = p.n_steps.toNat ∧
      p.ta.length = p.n_steps.toNat) :=
  ⟨by decide, by decide,
    c3_n_steps_and_allocation [1, 2, 3] [4, 5, 6] (fun _ => 0) (fun s _ => s)
      10 3 true (by decide) (by decide)⟩

/-- C4: sample 0 of the trajectory is the initial condition — time 0, the
resolved initial state, and the true anomaly of that state — both at
construction and after `propagate_orbit` completes: the stepping loop
starts at index 1 and never writes index 0. -/
theorem c4_sample0_invariant (r0 v0 : List ℚ) (T : List ℚ → ℚ)
    (I : Integrator) (tspan dt : ℚ) (h1 : 0 < tspan) (h2 : 0 < dt) :
    ∃ p, initTraj r0 v0 T I tspan dt false = some p ∧
      p.ts[0]? = some 0 ∧
      p.ys[0]? = some (r0 ++ v0) ∧
      p.ta[0]? = some (T (r0 ++ v0)) ∧
      (propagate_orbit I T p).ts[0]? = some 0 ∧
      (propagate_orbit I T p).ys[0]? = some (r0 ++ v0) ∧
      (propagate_orbit I T p).ta[0]? = some (T (r0 ++ v0)) := by
  have hc : 0 < ⌈tspan / dt⌉ := Int.ceil_pos.mpr (div_pos h1 h2)
  refine ⟨mkInitial r0 v0 T tspan dt,
    by rw [initTraj_of_pos r0 v0 T I tspan dt false h1 h2]; rfl, ?_⟩
  obtain ⟨m1, m2, m3⟩ := mkInitial_sample0 r0 v0 T tspan dt hc
  obtain ⟨l1, l2, l3⟩ :=
    propagateLoop_get?_lt I T
      ((mkInitial r0 v0 T tspan dt).n_steps.toNat - (mkInitial r0 v0 T tspan dt).step)
      (mkInitial r0 v0 T tspan dt) 0 (by simp)
  refine ⟨m1, m2, m3, ?_, ?_, ?_⟩ <;>
    simp only [propagate_orbit_ts, propagate_orbit_ys, propagate_orbit_ta, l1, l2, l3] <;>
    assumption

/-- C4 witness at tspan = 10, dt = 3. -/
theorem c4_witness :
    (0 : ℚ) < 10 ∧ (0 : ℚ) < 3 ∧
    (∃ p, initTraj [1, 2, 3] [4, 5, 6] (fun _ => 7) (fun s _ => s) 10 3 false = some p ∧
      p.ts[0]? = some 0 ∧
      p.ys[0]? = some ([1, 2, 3] ++ [4, 5, 6]) ∧
      p.ta[0]? = some ((fun _ => (7 : ℚ)) ([1, 2, 3] ++ [4, 5, 6])) ∧
      (propagate_orbit (fun s _ => s) (fun _ => 7) p).ts[0]? = some 0 ∧
      (propagate_orbit (fun s _ => s) (fun _ => 7) p).ys[0]? = some ([1, 2, 3] ++ [4, 5, 6]) ∧
      (propagate_orbit (fun s _ => s) (fun _ => 7) p).ta[0]? =
        some ((fun _ => (7 : ℚ)) ([1, 2, 3] ++ [4, 5, 6]))) :=
  ⟨by decide, by decide,
    c4_sample0_invariant [1, 2, 3] [4, 5, 6] (fun _ => 7) (fun s _ => s)
      10 3 (by decide) (by decide)⟩

theorem advanceOnce_iterate_t (I : Integrator) (dt : ℚ)
    (hI : ∀ s target, (I s target).t = target) (k : ℕ) (s : Solver) :
    ((advanceOnce I dt)^[k] s).t = s.t + k * dt := by
  induction k generalizing s with
  | zero => simp
  | succ k ih =>
      rw [Function.iterate_succ_apply', advanceOnce, hI, ih]
      push_cast
      ring

/-- C5: when every advance reaches its target time (the solver contract on
success), the recorded time sample at every index k equals k*dt, so
successive samples are strictly increasing, spaced by exactly dt. -/
theorem c5_time_samples (r0 v0 : List ℚ) (T : List ℚ → ℚ) (I : Integrator)
    (tspan dt : ℚ) (h1 : 0 < tspan) (h2 : 0 < dt)
    (hI : ∀ s target, (I s target).t = target) :
    ∃ p, initTraj r0 v0 T I tspan dt true = some p ∧
      (∀ k : ℕ, k < p.n_steps.toNat → p.ts[k]? = some ((k : ℚ) * dt)) ∧
      (∀ k : ℕ, k + 1 < p.n_steps.toNat → p.ts.getD k 0 < p.ts.getD (k + 1) 0) := by
  have hc : 0 < ⌈tspan / dt⌉ := Int.ceil_pos.mpr (div_pos h1 h2)
  refine ⟨propagate_orbit I T (mkInitial r0 v0 T tspan dt),
    by rw [initTraj_of_pos r0 v0 T I tspan dt true h1 h2]; rfl, ?_⟩
  set m := mkInitial r0 v0 T tspan dt with hm
  have hsample : ∀ k : ℕ, k < (propagate_orbit I T m).n_steps.toNat →
      (propagate_orbit I T m).ts[k]? = some ((k : ℚ) * dt) := by
    intro k hk
    rw [propagate_orbit_n_steps, hm, mkInitial_n_steps] at hk
    rcases Nat.eq_zero_or_pos k with hk0 | hk1
    · subst hk0
      obtain ⟨l1, -, -⟩ :=
        propagateLoop_get?_lt I T (m.n_steps.toNat - m.step) m 0 (by simp [hm])
      obtain ⟨m1, -, -⟩ := mkInitial_sample0 r0 v0 T tspan dt hc
      rw [propagate_orbit_ts, l1]
      simpa using m1
    · obtain ⟨g1, -, -⟩ :=
        propagateLoop_get?_trace I T (m.n_steps.toNat - m.step) m k
          (by simp [hm]) (by simp [hm]) (by simp [hm])
          (by simp [hm]; omega)
          (by simp [hm]; omega)
      rw [propagate_orbit_ts, g1]
      have hstep : m.step = 1 := by simp [hm]
      have hdt : m.dt = dt := by simp [hm]
      have hsolver : m.solver = { t := 0, y := r0 ++ v0, ok := true } := by simp [hm]
      rw [hstep, hdt, hsolver, advanceOnce_iterate_t I dt hI]
      have he : k + 1 - 1 = k := by omega
      rw [he]
      norm_num
  refine ⟨hsample, ?_⟩
  intro k hk
  have e1 := hsample k (by omega)
  have e2 := hsample (k + 1) hk
  rw [List.getD_eq_getElem?_getD, List.getD_eq_getElem?_getD, e1, e2]
  simp only [Option.getD_some]
  push_cast
  nlinarith [h2, (Nat.cast_nonneg k : (0:ℚ) ≤ (k:ℚ))]

/-- C5 witness: tspan = 3, dt = 1, with the ideal solver that always
reaches its target time. -/
theorem c5_witness :
    (0 : ℚ) < 3 ∧ (0 : ℚ) < 1 ∧
    (∀ s target,
      (((fun s target => { t := target, y := s.y, ok := true }) : Integrator) s target).t =
        target) ∧
    (∃ p, initTraj [1, 2, 3] [4, 5, 6] (fun _ => 0)
        (fun s target => { t := target, y := s.y, ok := true }) 3 1 true = some p ∧
      (∀ k : ℕ, k < p.n_steps.toNat → p.ts[k]? = some ((k : ℚ) * 1)) ∧
      (∀ k : ℕ, k + 1 < p.n_steps.toNat → p.ts.getD k 0 < p.ts.getD (k + 1) 0)) :=
  ⟨by decide, by decide, fun s target => rfl,
    c5_time_samples [1, 2, 3] [4, 5, 6] (fun _ => 0)
      (fun s target => { t := target, y := s.y, ok := true }) 3 1
      (by decide) (by decide) (fun s target => rfl)⟩

theorem propagateLoop_solver (I : Integrator) (T : List ℚ → ℚ) (f : ℕ) (p : Propagator) :
    (propagateLoop I T f p).solver =
      (advanceOnce I p.dt)^[min f (p.n_steps.toNat - p.step)] p.solver := by
  induction f generalizing p with
  | zero => simp [propagateLoop]
  | succ f ih =>
      simp only [propagateLoop]
      split
      · rename_i h
        have hlt : p.step < p.n_steps.toNat := Int.lt_toNat.mpr h.2
        rw [ih (loopIter I T p)]
        simp only [loopIter_n_steps, loopIter_dt, loopIter_step, loopIter_solver]
        rw [← Function.iterate_succ_apply]
        congr 1
        omega
      · rename_i h
        have hge : ¬ ((p.step : ℤ) < p.n_steps) := fun hc => h ⟨rfl, hc⟩
        have hle : p.n_steps.toNat ≤ p.step := Int.toNat_le.mpr (by omega)
        have hm : min (f + 1) (p.n_steps.toNat - p.step) = 0 := by omega
        rw [hm]
        simp

/-- C9: the solver is created exactly once, at construction, holding the
initial state at time 0; thereafter every recorded sample k is the k-fold
iterate of the single one-step advance map applied to that unique starting
solver state — each advance starts from the solver state in which the
previous advance ended, with no re-initialization between output steps —
and the final solver state is the (n_steps - 1)-fold iterate. -/
theorem c9_solver_continuity (r0 v0 : List ℚ) (T : List ℚ → ℚ) (I : Integrator)
    (tspan dt : ℚ) (h1 : 0 < tspan) (h2 : 0 < dt) :
    ∃ p, initTraj r0 v0 T I tspan dt false = some p ∧
      p.solver = { t := 0, y := r0 ++ v0, ok := true } ∧
      (∀ k : ℕ, 1 ≤ k → k < p.n_steps.toNat →
        (propagate_orbit I T p).ts[k]? = some ((advanceOnce I dt)^[k] p.solver).t ∧
        (propagate_orbit I T p).ys[k]? = some ((advanceOnce I dt)^[k] p.solver).y) ∧
      (propagate_orbit I T p).solver =
        (advanceOnce I dt)^[p.n_steps.toNat - 1] p.solver := by
  refine ⟨mkInitial r0 v0 T tspan dt,
    by rw [initTraj_of_pos r0 v0 T I tspan dt false h1 h2]; rfl, by simp, ?_, ?_⟩
  · intro k hk1 hk2
    set m := mkInitial r0 v0 T tspan dt with hm
    rw [hm, mkInitial_n_steps] at hk2
    obtain ⟨g1, g2, -⟩ :=
      propagateLoop_get?_trace I T (m.n_steps.toNat - m.step) m k
        (by simp [hm]) (by simp [hm]) (by simp [hm])
        (by simp [hm]; omega) (by simp [hm]; omega)
    rw [propagate_orbit_ts, propagate_orbit_ys, g1, g2]
    have hstep : m.step = 1 := by simp [hm]
    have hdt : m.dt = dt := by simp [hm]
    rw [hstep, hdt]
    have he : k + 1 - 1 = k := by omega
    rw [he]
    exact ⟨rfl, rfl⟩
  · set m := mkInitial r0 v0 T tspan dt with hm
    rw [propagate_orbit_solver, propagateLoop_solver]
    have hstep : m.step = 1 := by simp [hm]
    have hdt : m.dt = dt := by simp [hm]
    rw [hstep, hdt]
    congr 1
    omega

/-- C9 witness: tspan = 3, dt = 1, identity solver. -/
theorem c9_witness :
    (0 : ℚ) < 3 ∧ (0 : ℚ) < 1 ∧
    (∃ p, initTraj [1, 2, 3] [4, 5, 6] (fun _ => 0) (fun s _ => s) 3 1 false = some p ∧
      p.solver = { t := 0, y := [1, 2, 3] ++ [4, 5, 6], ok := true } ∧
      (∀ k : ℕ, 1 ≤ k → k < p.n_steps.toNat →
        (propagate_orbit (fun s _ => s) (fun _ => 0) p).ts[k]? =
          some ((advanceOnce (fun s _ => s) 1)^[k] p.solver).t ∧
        (propagate_orbit (fun s _ => s) (fun _ => 0) p).ys[k]? =
          some ((advanceOnce (fun s _ => s) 1)^[k] p.solver).y) ∧
      (propagate_orbit (fun s _ => s) (fun _ => 0) p).solver =
        (advanceOnce (fun s _ => s) 1)^[p.n_steps.toNat - 1] p.solver) :=
  ⟨by decide, by decide,
    c9_solver_continuity [1, 2, 3] [4, 5, 6] (fun _ => 0) (fun s _ => s) 3 1
      (by decide) (by decide)⟩

theorem propagate_orbit_of_complete (I : Integrator) (T : List ℚ → ℚ)
    (p : Propagator) (h : p.n_steps.toNat ≤ p.step)
    (hrs : p.rs = p.ys.map (fun row => row.take 3))
    (hvs : p.vs = p.ys.map (fun row => row.drop 3)) :
    propagate_orbit I T p = p := by
  have hf : p.n_steps.toNat - p.step = 0 := by omega
  simp only [propagate_orbit, hf, propagateLoop]
  rw [← hrs, ← hvs]

/-- C10: `propagate_orbit` is idempotent: a second call finds the step
counter already at `n_steps`, so the loop body never executes; the times,
states and true-anomaly arrays are left unchanged and the position and
velocity views are recomputed from the same states to the same values. -/
theorem c10_propagate_idempotent (I : Integrator) (T : List ℚ → ℚ)
    (p : Propagator) :
    propagate_orbit I T (propagate_orbit I T p) = propagate_orbit I T p := by
  apply propagate_orbit_of_complete
  · rw [propagate_orbit_n_steps, propagate_orbit_step, propagateLoop_step]
    omega
  · rfl
  · rfl

/-- C1 (source defect, lines 30-31): with `coes=False` the constructor does
not split the raw 6-component state into position = first 3 and
velocity = last 3: `r0` is assigned `state0[:3]` and then immediately
reassigned `state0[3:]`, and `v0` is never assigned, so line 33
(`self.v0.tolist()`) fails with `AttributeError` — construction yields no
instance at all, rather than recording `y0` as the documented
concatenation.  Evaluated here at the raw state [1,2,3,4,5,6]. -/
theorem c1_raw_state_split_fails :
    orbitPropInit (fun s => (s.take 3, s.drop 3)) (fun _ => 0) (fun s _ => s)
      [1, 2, 3, 4, 5, 6] 10 1 false true = none := rfl

/-- C2 (source defect, line 65): the loop condition references
`solver.successful` without calling it, and a bound method is always
truthy, so the loop never halts on integrator failure.  With a solver that
reports failure (`ok = false`) from the very first advance, the loop still
runs to `step = n_steps = 3` and writes every sample: indices 1 and 2 hold
solver output instead of their allocated zeros. -/
theorem c2_failure_does_not_halt :
    ∃ p, initTraj [7, 0, 0] [0, 7, 0] (fun _ => 0)
        (fun s tgt => { t := tgt, y := s.y.map (fun x => x + 2), ok := false })
        3 1 true = some p ∧
      p.solver.ok = false ∧
      p.step = 3 ∧
      p.ts[1]? = some 1 ∧
      p.ts[2]? = some 2 ∧
      p.ys[2]? = some [11, 4, 4, 4, 11, 4] := by
  have h1 : (0 : ℚ) < 3 := by norm_num
  have h2 : (0 : ℚ) < 1 := by norm_num
  set I : Integrator :=
    fun s tgt => { t := tgt, y := s.y.map (fun x => x + 2), ok := false } with hI
  set T : List ℚ → ℚ := fun _ => 0 with hT
  refine ⟨propagate_orbit I T (mkInitial [7, 0, 0] [0, 7, 0] T 3 1),
    by rw [initTraj_of_pos [7, 0, 0] [0, 7, 0] T I 3 1 true h1 h2]; rfl,
    ?_, ?_, ?_, ?_, ?_⟩
  all_goals
    set m := mkInitial [7, 0, 0] [0, 7, 0] T 3 1 with hm
  all_goals
    have hC : (⌈(3 : ℚ) / 1⌉).toNat = 3 := by
      rw [show ⌈(3 : ℚ) / 1⌉ = 3 by norm_num]
      decide
  all_goals
    have hstep : m.step = 1 := by simp [hm]
  all_goals
    have hdt : m.dt = 1 := by simp [hm]
  all_goals
    have hns : m.n_steps = ⌈(3 : ℚ) / 1⌉ := by simp [hm]
  · rw [propagate_orbit_solver, propagateLoop_solver, hstep, hdt, hns, hC]
    rfl
  · rw [propagate_orbit_step, propagateLoop_step, hstep, hns, hC]
    omega
  · obtain ⟨g1, -, -⟩ :=
      propagateLoop_get?_trace I T (m.n_steps.toNat - m.step) m 1
        (by simp [hm]) (by simp [hm]) (by simp [hm])
        (by rw [hstep]) (by rw [hstep, hns, hC]; omega)
    rw [propagate_orbit_ts, g1, hstep, hdt]
    have hsolver : m.solver = { t := 0, y := [7, 0, 0, 0, 7, 0], ok := true } := by
      simp [hm, mkInitial_solver]
    rw [hsolver]
    norm_num [advanceOnce, hI]
  · obtain ⟨g1, -, -⟩ :=
      propagateLoop_get?_trace I T (m.n_steps.toNat - m.step) m 2
        (by simp [hm]) (by simp [hm]) (by simp [hm])
        (by rw [hstep]; omega) (by rw [hstep, hns, hC]; omega)
    rw [propagate_orbit_ts, g1, hstep, hdt]
    have hsolver : m.solver = { t := 0, y := [7, 0, 0, 0, 7, 0], ok := true } := by
      simp [hm, mkInitial_solver]
    rw [hsolver]
    norm_num [advanceOnce, hI, Function.iterate_succ_apply, Function.iterate_one]
  · obtain ⟨-, g2, -⟩ :=
      propagateLoop_get?_trace I T (m.n_steps.toNat - m.step) m 2
        (by simp [hm]) (by simp [hm]) (by simp [hm])
        (by rw [hstep]; omega) (by rw [hstep, hns, hC]; omega)
    rw [propagate_orbit_ys, g2, hstep, hdt]
    have hsolver : m.solver = { t := 0, y := [7, 0, 0, 0, 7, 0], ok := true } := by
      simp [hm, mkInitial_solver]
    rw [hsolver]
    norm_num [advanceOnce, hI, Function.iterate_succ_apply, Function.iterate_one]

/-- C6: for every time and every state with nonzero position norm, the
equations-of-motion evaluator returns the derivative (v, a) with
`a = -mu * r / |r|^3` componentwise, and its result does not depend on the
time argument (the system is autonomous). -/
theorem c6_diffy_q_formula (mu t t' : ℝ) (y : StateR) (h : posNorm y ≠ 0) :
    (diffy_q mu t y).rx = y.vx ∧
    (diffy_q mu t y).ry = y.vy ∧
    (diffy_q mu t y).rz = y.vz ∧
    (diffy_q mu t y).vx = -(mu * y.rx) / posNorm y ^ 3 ∧
    (diffy_q mu t y).vy = -(mu * y.ry) / posNorm y ^ 3 ∧
    (diffy_q mu t y).vz = -(mu * y.rz) / posNorm y ^ 3 ∧
    diffy_q mu t y = diffy_q mu t' y := by
  refine ⟨rfl, rfl, rfl, ?_, ?_, ?_, rfl⟩ <;>
    · show -_ * mu / posNorm y ^ 3 = _
      ring

/-- C6 witness at r = (1,0,0), v = (4,5,6), mu = 2, times 0 and 9. -/
theorem c6_witness :
    posNorm { rx := 1, ry := 0, rz := 0, vx := 4, vy := 5, vz := 6 } ≠ 0 ∧
    ((diffy_q 2 0 { rx := 1, ry := 0, rz := 0, vx := 4, vy := 5, vz := 6 }).rx =
        ({ rx := 1, ry := 0, rz := 0, vx := 4, vy := 5, vz := 6 } : StateR).vx ∧
      (diffy_q 2 0 { rx := 1, ry := 0, rz := 0, vx := 4, vy := 5, vz := 6 }).ry =
        ({ rx := 1, ry := 0, rz := 0, vx := 4, vy := 5, vz := 6 } : StateR).vy ∧
      (diffy_q 2 0 { rx := 1, ry := 0, rz := 0, vx := 4, vy := 5, vz := 6 }).rz =
        ({ rx := 1, ry := 0, rz := 0, vx := 4, vy := 5, vz := 6 } : StateR).vz ∧
      (diffy_q 2 0 { rx := 1, ry := 0, rz := 0, vx := 4, vy := 5, vz := 6 }).vx =
        -(2 * ({ rx := 1, ry := 0, rz := 0, vx := 4, vy := 5, vz := 6 } : StateR).rx) /
          posNorm { rx := 1, ry := 0, rz := 0, vx := 4, vy := 5, vz := 6 } ^ 3 ∧
      (diffy_q 2 0 { rx := 1, ry := 0, rz := 0, vx := 4, vy := 5, vz := 6 }).vy =
        -(2 * ({ rx := 1, ry := 0, rz := 0, vx := 4, vy := 5, vz := 6 } : StateR).ry) /
          posNorm { rx := 1, ry := 0, rz := 0, vx := 4, vy := 5, vz := 6 } ^ 3 ∧
      (diffy_q 2 0 { rx := 1, ry := 0, rz := 0, vx := 4, vy := 5, vz := 6 }).vz =
        -(2 * ({ rx := 1, ry := 0, rz := 0, vx := 4, vy := 5, vz := 6 } : StateR).rz) /
          posNorm { rx := 1, ry := 0, rz := 0, vx := 4, vy := 5, vz := 6 } ^ 3 ∧
      diffy_q 2 0 { rx := 1, ry := 0, rz := 0, vx := 4, vy := 5, vz := 6 } =
        diffy_q 2 9 { rx := 1, ry := 0, rz := 0, vx := 4, vy := 5, vz := 6 }) :=
  have h : posNorm { rx := 1, ry := 0, rz := 0, vx := 4, vy := 5, vz := 6 } ≠ 0 := by
    simp [posNorm]
  ⟨h, c6_diffy_q_formula 2 0 9 _ h⟩

/-- C7 counterexample: applied to a state with `|r| = 0` the evaluator does
not fail with any guarded error: it returns an ordinary value, whose
acceleration components come from the unguarded division by zero (0 in
this exact-real semantics, where the float source yields NaN). -/
theorem c7_counterexample_no_error_at_singularity :
    diffy_q 398600 5 { rx := 0, ry := 0, rz := 0, vx := 1, vy := 2, vz := 3 } =
      { rx := 1, ry := 2, rz := 3, vx := 0, vy := 0, vz := 0 } := by
  simp [diffy_q, posNorm]

/-- C7 amended: at `|r| = 0` the evaluator performs the division by zero
with no guard and silently returns the velocity components together with
ill-defined accelerations (0 here, NaN under the float semantics of the
source); no `SingularityError` is raised anywhere. -/
theorem c7_singularity_unguarded (mu t vx vy vz : ℝ) :
    diffy_q mu t { rx := 0, ry := 0, rz := 0, vx := vx, vy := vy, vz := vz } =
      { rx := vx, ry := vy, rz := vz, vx := 0, vy := 0, vz := 0 } := by
  simp [diffy_q, posNorm]

/-- C8 counterexample: tspan = -10 and dt = -1 are both non-positive, yet
construction succeeds and yields a usable instance — no configuration
error is raised. -/
theorem c8_counterexample_nonpositive_config_succeeds :
    (-10 : ℚ) ≤ 0 ∧ (-1 : ℚ) ≤ 0 ∧
    (initTraj [1, 2, 3] [4, 5, 6] (fun _ => 0) (fun s _ => s)
        (-10) (-1) false).isSome = true := by
  refine ⟨by norm_num, by norm_num, ?_⟩
  have hc : ⌈(-10 : ℚ) / (-1)⌉ = 10 := by norm_num
  simp [initTraj, hc]

/-- C8 amended: construction performs no validation at all: it succeeds
exactly when `dt ≠ 0` and `ceil(tspan/dt) ≥ 1` (regardless of the signs of
`tspan` and `dt`), and the failures outside that range are incidental
unguarded runtime errors, not a configuration error. -/
theorem c8_no_validation (r0 v0 : List ℚ) (T : List ℚ → ℚ) (I : Integrator)
    (tspan dt : ℚ) (auto : Bool) :
    (initTraj r0 v0 T I tspan dt auto).isSome = true ↔
      (dt ≠ 0 ∧ 1 ≤ ⌈tspan / dt⌉) := by
  by_cases h1 : dt = 0
  · simp [initTraj, h1]
  · by_cases h2 : ⌈tspan / dt⌉ < 0
    · simp only [initTraj, if_neg h1, if_pos h2, Option.isSome_none,
        Bool.false_eq_true, false_iff]
      intro hc
      exact absurd hc.2 (by omega)
    · by_cases h3 : ⌈tspan / dt⌉ = 0
      · simp only [initTraj, if_neg h1, if_neg h2, if_pos h3, Option.isSome_none,
          Bool.false_eq_true, false_iff]
        intro hc
        exact absurd hc.2 (by omega)
      · simp only [initTraj, if_neg h1, if_neg h2, if_neg h3, Option.isSome_some,
          true_iff]
        exact ⟨h1, by omega⟩

end OrbitProp

